import Mathlib

set_option linter.unusedVariables false

/-!
Verification of the facial-attendance backend (`backend/services/asistencia_service.py`,
`backend/services/face_recognition_service.py`, `backend/services/supabase_service.py`,
`backend/api/server.py`).

Python dictionaries are modelled as insertion-ordered association lists; times of day
are modelled as seconds since midnight (the source stores `"%H:%M:%S"` strings, parsed
back with `strptime`, which is an exact round-trip at second granularity); `float`
similarity scores are modelled over `ℚ`.
-/

namespace Asistencia

/-- A Python `dict` lookup: `d.get(k)` on an insertion-ordered association list. -/
def dictGet {α : Type} : List (String × α) → String → Option α
  | [], _ => none
  | p :: rest, k => if p.1 = k then some p.2 else dictGet rest k

/-- A Python `dict` assignment `d[k] = v`: replace the value at the first (unique)
occurrence of `k` keeping its position, else append `(k, v)` at the end (Python
dicts preserve insertion order, and re-assignment keeps the original position). -/
def dictSet {α : Type} : List (String × α) → String → α → List (String × α)
  | [], k, v => [(k, v)]
  | p :: rest, k, v => if p.1 = k then (p.1, v) :: rest else p :: dictSet rest k v

/-- One attendance event, `{"tipo": tipo, "hora": hora}`; `hora` in seconds since
midnight. -/
structure Registro where
  tipo : String
  hora : Nat
deriving DecidableEq

/-- One day of the ledger: person name ↦ chronological event list. -/
abbrev RegistrosDia := List (String × List Registro)

/-- The local ledger `asistencia_cache`: date ↦ person ↦ event list. -/
abbrev Cache := List (String × RegistrosDia)

/-- `(hora_actual - ultimo_dt).seconds` from `AsistenciaService._evaluar_registro`:
both datetimes carry today's date, so the timedelta's total seconds is the signed
same-day difference and Python normalises the `.seconds` field into `[0, 86400)`
(floor modulus), even for negative differences. -/
def diff_segundos (horaActual horaUltimo : Nat) : Nat :=
  (((horaActual : Int) - (horaUltimo : Int)).emod 86400).toNat

/-- `AsistenciaService._evaluar_registro(nombre, ultimo, tiempo_espera)`; the current
time (`datetime.now()` inside the source) is passed explicitly as `horaActual`.
The `nombre` argument is unused by the source's logic, as here. -/
def evaluar_registro (nombre : String) (ultimo : Option Registro)
    (horaActual : Nat) (tiempoEspera : Nat) : Bool × Option String :=
  match ultimo with
  | none => (true, some "entrada")
  | some u =>
    let diff := diff_segundos horaActual u.hora
    if diff < tiempoEspera then (false, none)
    else (true, some (if u.tipo = "entrada" then "salida" else "entrada"))

/-- `AsistenciaService.obtener_asistencia_fecha` (local mode): `cache.get(fecha, {})`. -/
def obtener_asistencia_fecha (cache : Cache) (fecha : String) : RegistrosDia :=
  (dictGet cache fecha).getD []

/-- `AsistenciaService.obtener_asistencia_persona` (local mode):
`registros.get(nombre, [])`. -/
def obtener_asistencia_persona (cache : Cache) (nombre fecha : String) : List Registro :=
  (dictGet (obtener_asistencia_fecha cache fecha) nombre).getD []

/-- `AsistenciaService.verificar_puede_registrar` (local mode): the last event today
(`historial[-1] if historial else None`) fed into `_evaluar_registro`. -/
def verificar_puede_registrar (cache : Cache) (fecha nombre : String)
    (horaActual : Nat) (tiempoEspera : Nat) : Bool × Option String :=
  let registros := obtener_asistencia_fecha cache fecha
  let historial := (dictGet registros nombre).getD []
  let ultimo := historial.getLast?
  evaluar_registro nombre ultimo horaActual tiempoEspera

/-- `AsistenciaService._registrar_local(nombre, tipo, fecha, hora)`: create the
date and person entries if absent, then append the event. -/
def registrar_local (cache : Cache) (nombre tipo fecha : String) (hora : Nat) : Cache :=
  let dia := obtener_asistencia_fecha cache fecha
  let historial := (dictGet dia nombre).getD []
  dictSet cache fecha (dictSet dia nombre (historial ++ [{ tipo := tipo, hora := hora }]))

/-- The per-recognized-face body of `registrar_asistencia` in `backend/api/server.py`
(local mode): check `verificar_puede_registrar` (default interval 10 s) and append the
event through `registrar_asistencia`/`_registrar_local` only when allowed.
When `resultado.1` holds, `resultado.2` is provably `some _`, so the `getD`
default is dead code. -/
def procesar_rostro (cache : Cache) (fecha nombre : String) (horaActual : Nat) : Cache :=
  let resultado := verificar_puede_registrar cache fecha nombre horaActual 10
  if resultado.1 then registrar_local cache nombre (resultado.2.getD "") fecha horaActual
  else cache

/-- Result of `AsistenciaService._calcular_estadisticas`. -/
structure Estadisticas where
  total_personas : Nat
  con_entrada : Nat
  con_salida : Nat
  presentes : Nat
deriving DecidableEq

/-- `any(r["tipo"] == "entrada" for r in eventos)`. -/
def tiene_entrada (eventos : List Registro) : Bool :=
  eventos.any (fun r => r.tipo == "entrada")

/-- `any(r["tipo"] == "salida" for r in eventos)`. -/
def tiene_salida (eventos : List Registro) : Bool :=
  eventos.any (fun r => r.tipo == "salida")

/-- The loop body of `_calcular_estadisticas`, incrementing the three counters
`(con_entrada, con_salida, presentes)`. -/
def paso_estadistica (acc : Nat × Nat × Nat) (par : String × List Registro) :
    Nat × Nat × Nat :=
  ((if tiene_entrada par.2 then acc.1 + 1 else acc.1),
   (if tiene_salida par.2 then acc.2.1 + 1 else acc.2.1),
   (if tiene_entrada par.2 && !(tiene_salida par.2) then acc.2.2 + 1 else acc.2.2))

/-- `AsistenciaService._calcular_estadisticas(registros)`. -/
def calcular_estadisticas (registros : List (String × List Registro)) : Estadisticas :=
  let contadores := registros.foldl paso_estadistica (0, 0, 0)
  { total_personas := registros.length
    con_entrada := contadores.1
    con_salida := contadores.2.1
    presentes := contadores.2.2 }

/-- The event type the alternation invariant expects at position `i` of a person's
daily history: entrance at even positions, exit at odd ones. -/
def tipo_esperado (i : Nat) : String :=
  if i % 2 = 0 then "entrada" else "salida"

/-- `alterna i l` checks that the events of `l` strictly alternate
entrance, exit, entrance, … starting from position `i`. -/
def alterna : Nat → List Registro → Bool
  | _, [] => true
  | i, r :: rs => (r.tipo == tipo_esperado i) && alterna (i + 1) rs

end Asistencia

namespace FaceRec

open Asistencia (dictGet dictSet)

/-- The stored per-person record built by `FaceRecognitionService.registrar_persona`
(value side of `personas_registradas`). -/
structure PersonaInfo where
  embedding : List ℚ
  fecha_registro : String
  edad : Option Int
  genero : String
deriving DecidableEq

/-- The in-memory identity store `personas_registradas` (a Python dict). -/
abbrev Personas := List (String × PersonaInfo)

/-- `np.dot(embedding, registrado)` over rationals. -/
def np_dot (a b : List ℚ) : ℚ :=
  (List.zipWith (fun x y => x * y) a b).sum

/-- The loop body of `FaceRecognitionService._reconocer_persona`, carrying
`(mejor_match, mejor_similitud)`: entries with a missing/empty stored embedding are
skipped, and the best pair is replaced only on a strictly greater similarity. -/
def paso_reconocer (embedding : List ℚ) (acc : Option String × ℚ)
    (par : String × PersonaInfo) : Option String × ℚ :=
  let registrado := par.2.embedding
  if registrado.isEmpty then acc
  else
    let similitud := np_dot embedding registrado
    if acc.2 < similitud then (some par.1, similitud) else acc

/-- `FaceRecognitionService._reconocer_persona(embedding, umbral)` (source default
`umbral = 0.4`): starting from `(None, 0.0)`, keep the strictly best match, then
return it if `mejor_similitud >= umbral`, else `(None, 0.0)` ("unknown"). -/
def reconocer_persona (personas : Personas) (embedding : List ℚ) (umbral : ℚ) :
    Option String × ℚ :=
  let mejor := personas.foldl (paso_reconocer embedding) (none, 0)
  if umbral ≤ mejor.2 then (mejor.1, mejor.2) else (none, 0)

/-- Specification-side running maximum: the largest similarity against the store,
starting from `s`. -/
def mejor_desde (embedding : List ℚ) (s : ℚ) (personas : Personas) : ℚ :=
  personas.foldl (fun acc par => max acc (np_dot embedding par.2.embedding)) s

/-- Specification-side maximum similarity of `embedding` against the store
(floored at the loop's starting value `0.0`). -/
def mejor_similitud (personas : Personas) (embedding : List ℚ) : ℚ :=
  mejor_desde embedding 0 personas

/-- Specification-side tie-break: the first entry (in the store's iteration order)
whose similarity attains the maximum. -/
def primer_mejor (personas : Personas) (embedding : List ℚ) : Option String :=
  (personas.find?
    (fun par => decide (np_dot embedding par.2.embedding = mejor_similitud personas embedding))).map
    Prod.fst

/-- A detected face as returned by the external `insightface` model: bounding box,
optional age/sex/detection score, and a normalised embedding. -/
structure Face where
  bbox : List Int
  age : Option Int
  sex : Option String
  det_score : Option ℚ
  normed_embedding : List ℚ
deriving DecidableEq

/-- The `persona_info` dict built inside `registrar_persona` from the single
detected face (`ahora` stands for `datetime.now().strftime(...)`):
`genero = "M" if getattr(face, "sex", "M") == "M" else "F"`. -/
def persona_info_de (face : Face) (ahora : String) : PersonaInfo :=
  { embedding := face.normed_embedding
    fecha_registro := ahora
    edad := face.age
    genero := if face.sex.getD "M" = "M" then "M" else "F" }

/-- `FaceRecognitionService.registrar_persona(nombre, imagen)`, with the detector
output `self.app.get(imagen)` passed as `faces`: error (and untouched store) when
zero faces or more than one face, otherwise store the single face's record under
`nombre`. Result is `((exito, mensaje), updated store)`. -/
def registrar_persona (personas : Personas) (nombre : String) (faces : List Face)
    (ahora : String) : (Bool × String) × Personas :=
  match faces with
  | [] => ((false, "No se detecto ningun rostro en la imagen"), personas)
  | [face] =>
    ((true, nombre ++ " registrado correctamente"),
     dictSet personas nombre (persona_info_de face ahora))
  | _ :: _ :: _ =>
    ((false, "Se detectaron multiples rostros. Usa una sola persona"), personas)

/-- `FaceRecognitionService.eliminar_persona(nombre)`: error when the name is not a
key of the store, else `del personas_registradas[nombre]`. -/
def eliminar_persona (personas : Personas) (nombre : String) :
    (Bool × String) × Personas :=
  if personas.any (fun par => par.1 == nombre) then
    ((true, nombre ++ " eliminado correctamente"),
     personas.filter (fun par => !(par.1 == nombre)))
  else
    ((false, nombre ++ " no encontrado"), personas)

/-- A JSON-ish value, used to model the Python dicts that cross the API boundary. -/
inductive Valor
  | texto (s : String)
  | entero (n : Int)
  | racional (q : ℚ)
  | vector (v : List ℚ)
  | listaEnteros (l : List Int)
  | nulo
deriving DecidableEq

/-- One record of `FaceRecognitionService.listar_personas` in local mode: exactly
the keys `nombre`, `fecha_registro`, `edad`, `genero`. -/
def listar_personas_local (personas : Personas) : List (List (String × Valor)) :=
  personas.map fun par =>
    [("nombre", Valor.texto par.1),
     ("fecha_registro", Valor.texto par.2.fecha_registro),
     ("edad", match par.2.edad with | some e => Valor.entero e | none => Valor.nulo),
     ("genero", Valor.texto (if par.2.genero = "M" then "Masculino" else "Femenino"))]

/-- A row of the `personas` table as selected by `SupabaseService.listar_personas`. -/
structure FilaPersona where
  nombre : String
  fecha_registro : Option String
  edad : Option Int
  genero : Option String
  foto_url : Option String
deriving DecidableEq

/-- `SupabaseService.listar_personas` (the path taken by
`FaceRecognitionService.listar_personas` when Supabase is enabled): each record has
the keys `nombre`, `fecha_registro`, `edad`, `genero` and additionally `foto_url`. -/
def listar_personas_supabase (filas : List FilaPersona) : List (List (String × Valor)) :=
  filas.map fun fila =>
    [("nombre", Valor.texto fila.nombre),
     ("fecha_registro",
       match fila.fecha_registro with | some s => Valor.texto s | none => Valor.nulo),
     ("edad", match fila.edad with | some e => Valor.entero e | none => Valor.nulo),
     ("genero", Valor.texto
       (if fila.genero = some "M" then "Masculino"
        else if fila.genero = some "F" then "Femenino" else "N/A")),
     ("foto_url", match fila.foto_url with | some u => Valor.texto u | none => Valor.nulo)]

/-- `FaceRecognitionService.detectar_rostros`: for each detected face build the
result dict — including the raw `embedding` — and attach the recognized name
(`"Desconocido"` for a falsy/absent match; threshold default 0.4 = 2/5) and
similarity. -/
def detectar_rostros (personas : Personas) (faces : List Face) :
    List (List (String × Valor)) :=
  faces.map fun face =>
    let nsim := reconocer_persona personas face.normed_embedding (2 / 5)
    let nombre := match nsim.1 with
      | some n => if n = "" then "Desconocido" else n
      | none => "Desconocido"
    [("bbox", Valor.listaEnteros face.bbox),
     ("edad", match face.age with | some e => Valor.entero e | none => Valor.nulo),
     ("genero", match face.sex with
       | some s => Valor.texto (if s = "M" then "Masculino" else "Femenino")
       | none => Valor.nulo),
     ("confianza", match face.det_score with
       | some c => Valor.racional c | none => Valor.nulo),
     ("embedding", Valor.vector face.normed_embedding),
     ("nombre", Valor.texto nombre),
     ("similitud", Valor.racional nsim.2)]

/-- The cleanup loop of the `/api/detectar` handler in `backend/api/server.py`:
`if 'embedding' in rostro: del rostro['embedding']` for every face dict, before the
response is produced. -/
def limpiar_embeddings (rostros : List (List (String × Valor))) :
    List (List (String × Valor)) :=
  rostros.map fun rostro => rostro.filter (fun par => !(par.1 == "embedding"))

end FaceRec

namespace Supabase

/-- Outcome of the external database call `.insert(payload).execute()`. -/
inductive ResultadoBackend
  | ok
  | excepcion (mensaje : String)
deriving DecidableEq

/-- The `payload` dict inserted into the `asistencias` table. -/
structure PayloadAsistencia where
  persona_nombre : String
  tipo : String
  fecha : String
  hora : String
deriving DecidableEq

/-- `SupabaseService.guardar_asistencia(nombre, tipo, fecha, hora)`: returns the
payload on success; when the service is disabled, or when the insert raises (the
exception is caught and only printed), it returns the empty dict — modelled as
`none`. -/
def guardar_asistencia (enabled : Bool) (insercion : ResultadoBackend)
    (nombre tipo fecha hora : String) : Option PayloadAsistencia :=
  if !enabled then none
  else
    match insercion with
    | .ok => some { persona_nombre := nombre, tipo := tipo, fecha := fecha, hora := hora }
    | .excepcion _ => none

/-- The success dict returned by `AsistenciaService.registrar_asistencia`. -/
structure RespuestaRegistro where
  exito : Bool
  nombre : String
  tipo : String
  hora : String
  fecha : String
deriving DecidableEq

/-- `AsistenciaService.registrar_asistencia(nombre, tipo)` in Supabase mode: the
return value of `guardar_asistencia` is discarded by the source, and the response
dict is built with `exito: True` unconditionally. -/
def registrar_asistencia (insercion : ResultadoBackend)
    (nombre tipo fecha hora : String) : RespuestaRegistro :=
  let resultadoGuardar := guardar_asistencia true insercion nombre tipo fecha hora
  let _ := resultadoGuardar
  { exito := true, nombre := nombre, tipo := tipo, hora := hora, fecha := fecha }

end Supabase

/-! ## Helper lemmas -/

namespace Asistencia

theorem dictGet_dictSet_self {α : Type} (d : List (String × α)) (k : String) (v : α) :
    dictGet (dictSet d k v) k = some v := by
  induction d with
  | nil => simp [dictGet, dictSet]
  | cons p rest ih =>
    by_cases h : p.1 = k
    · simp [dictGet, dictSet, h]
    · simp [dictGet, dictSet, h, ih]

theorem dictGet_of_any_false {α : Type} (d : List (String × α)) (k : String)
    (h : d.any (fun par => par.1 == k) = false) : dictGet d k = none := by
  induction d with
  | nil => rfl
  | cons p rest ih =>
    simp only [List.any_cons, Bool.or_eq_false_iff, beq_eq_false_iff_ne] at h
    simp [dictGet, h.1, ih h.2]

theorem dictGet_filter_ne {α : Type} (d : List (String × α)) (k : String) :
    dictGet (d.filter (fun par => !(par.1 == k))) k = none := by
  induction d with
  | nil => rfl
  | cons p rest ih =>
    by_cases h : p.1 = k
    · simpa [List.filter_cons, h] using ih
    · simpa [List.filter_cons, h, dictGet] using ih

theorem obtener_registrar (cache : Cache) (nombre tipo fecha : String) (hora : Nat) :
    obtener_asistencia_persona (registrar_local cache nombre tipo fecha hora) nombre fecha =
      obtener_asistencia_persona cache nombre fecha ++ [{ tipo := tipo, hora := hora }] := by
  simp [obtener_asistencia_persona, obtener_asistencia_fecha, registrar_local,
    dictGet_dictSet_self]

theorem diff_segundos_lt (horaActual horaUltimo : Nat) :
    diff_segundos horaActual horaUltimo < 86400 := by
  unfold diff_segundos
  have h1 : (0 : Int) ≤ ((horaActual : Int) - (horaUltimo : Int)).emod 86400 :=
    Int.emod_nonneg _ (by decide)
  have h2 : ((horaActual : Int) - (horaUltimo : Int)).emod 86400 < 86400 :=
    Int.emod_lt_of_pos _ (by decide)
  omega

theorem alterna_append (r : Registro) :
    ∀ (l : List Registro) (i : Nat),
      alterna i (l ++ [r]) = (alterna i l && (r.tipo == tipo_esperado (i + l.length))) := by
  intro l
  induction l with
  | nil => intro i; simp [alterna]
  | cons a t ih =>
    intro i
    have harith : i + 1 + t.length = i + (t.length + 1) := by omega
    simp only [List.cons_append, alterna, List.append_eq, ih (i + 1), List.length_cons,
      harith, Bool.and_assoc]

theorem alterna_getLast (u : Registro) :
    ∀ (l : List Registro) (i : Nat),
      alterna i l = true → l.getLast? = some u →
      u.tipo = tipo_esperado (i + (l.length - 1)) := by
  intro l
  induction l with
  | nil => intro i _ hlast; simp at hlast
  | cons a t ih =>
    intro i halt hlast
    rw [alterna, Bool.and_eq_true, beq_iff_eq] at halt
    cases t with
    | nil =>
      simp only [List.getLast?_singleton, Option.some.injEq] at hlast
      subst hlast
      simpa using halt.1
    | cons b t2 =>
      rw [List.getLast?_cons_cons] at hlast
      have := ih (i + 1) halt.2 hlast
      have harith : i + 1 + ((b :: t2).length - 1) = i + ((a :: b :: t2).length - 1) := by
        simp only [List.length_cons]; omega
      rwa [harith] at this

theorem toggle_tipo_esperado (n : Nat) (hn : 1 ≤ n) :
    (if tipo_esperado (n - 1) = "entrada" then "salida" else "entrada") = tipo_esperado n := by
  have h : (n - 1) % 2 = 0 ∧ n % 2 = 1 ∨ (n - 1) % 2 = 1 ∧ n % 2 = 0 := by omega
  rcases h with ⟨h1, h2⟩ | ⟨h1, h2⟩ <;> simp [tipo_esperado, h1, h2]

theorem alterna_step (cache : Cache) (fecha nombre : String) (horaActual : Nat)
    (h : alterna 0 (obtener_asistencia_persona cache nombre fecha) = true) :
    alterna 0 (obtener_asistencia_persona
      (procesar_rostro cache fecha nombre horaActual) nombre fecha) = true := by
  have hver : verificar_puede_registrar cache fecha nombre horaActual 10 =
      evaluar_registro nombre
        ((obtener_asistencia_persona cache nombre fecha).getLast?) horaActual 10 := rfl
  cases hlast : (obtener_asistencia_persona cache nombre fecha).getLast? with
  | none =>
    have hnil : obtener_asistencia_persona cache nombre fecha = [] :=
      List.getLast?_eq_none_iff.mp hlast
    have heval : verificar_puede_registrar cache fecha nombre horaActual 10 =
        (true, some "entrada") := by rw [hver, hlast]; rfl
    simp only [procesar_rostro, heval, Option.getD_some, if_pos]
    rw [obtener_registrar, hnil]
    simp [alterna, tipo_esperado]
  | some u =>
    have hne : obtener_asistencia_persona cache nombre fecha ≠ [] := by
      intro hnil
      rw [hnil] at hlast
      simp at hlast
    by_cases hdiff : diff_segundos horaActual u.hora < 10
    · have heval : verificar_puede_registrar cache fecha nombre horaActual 10 =
          (false, none) := by
        rw [hver, hlast]; simp [evaluar_registro, hdiff]
      simpa [procesar_rostro, heval] using h
    · have heval : verificar_puede_registrar cache fecha nombre horaActual 10 =
          (true, some (if u.tipo = "entrada" then "salida" else "entrada")) := by
        rw [hver, hlast]; simp [evaluar_registro, hdiff]
      have hlen : 1 ≤ (obtener_asistencia_persona cache nombre fecha).length :=
        List.length_pos.mpr hne
      have hu : u.tipo =
          tipo_esperado (0 + ((obtener_asistencia_persona cache nombre fecha).length - 1)) :=
        alterna_getLast u _ 0 h hlast
      rw [Nat.zero_add] at hu
      simp only [procesar_rostro, heval, Option.getD_some, if_pos]
      rw [obtener_registrar, alterna_append, h, Bool.true_and, hu,
        Nat.zero_add, toggle_tipo_esperado _ hlen]
      exact beq_self_eq_true _

end Asistencia

/-! ## Claim theorems -/

open Asistencia

/-- C1: for a person with no prior attendance event recorded today, the policy check
(`verificar_puede_registrar` / `_evaluar_registro` with no last event) returns
allowed = true and next type `"entrada"`. -/
theorem evaluar_sin_evento_previo :
    ∀ (nombre : String) (horaActual tiempoEspera : Nat) (cache : Cache) (fecha : String),
      evaluar_registro nombre none horaActual tiempoEspera = (true, some "entrada") ∧
      (obtener_asistencia_persona cache nombre fecha = [] →
        verificar_puede_registrar cache fecha nombre horaActual tiempoEspera =
          (true, some "entrada")) := by
  intro nombre horaActual tiempoEspera cache fecha
  refine ⟨rfl, fun h => ?_⟩
  show evaluar_registro nombre
    ((obtener_asistencia_persona cache nombre fecha).getLast?) horaActual tiempoEspera = _
  rw [h]
  rfl

/-- Witness for C1 at a concrete empty ledger. -/
theorem evaluar_sin_evento_previo_witness :
    verificar_puede_registrar [] "2026-10-12" "Ana" 32400 10 = (true, some "entrada") :=
  (evaluar_sin_evento_previo "Ana" 32400 10 [] "2026-10-12").2 rfl

/-- C2: when the elapsed seconds since the person's most recent event today are
strictly below the debounce interval, `_evaluar_registro` returns
(allowed = false, next type = none), and the server's per-face step appends nothing:
the ledger is unchanged by the rejected attempt. -/
theorem evaluar_debounce :
    (∀ (nombre : String) (u : Registro) (horaActual tiempoEspera : Nat),
        diff_segundos horaActual u.hora < tiempoEspera →
        evaluar_registro nombre (some u) horaActual tiempoEspera = (false, none)) ∧
    (∀ (cache : Cache) (fecha nombre : String) (horaActual : Nat) (u : Registro),
        (obtener_asistencia_persona cache nombre fecha).getLast? = some u →
        diff_segundos horaActual u.hora < 10 →
        procesar_rostro cache fecha nombre horaActual = cache) := by
  constructor
  · intro nombre u horaActual tiempoEspera h
    simp [evaluar_registro, h]
  · intro cache fecha nombre horaActual u hu h
    have hver : verificar_puede_registrar cache fecha nombre horaActual 10 = (false, none) := by
      show evaluar_registro nombre
        ((obtener_asistencia_persona cache nombre fecha).getLast?) horaActual 10 = _
      rw [hu]
      simp [evaluar_registro, h]
    simp [procesar_rostro, hver]

/-- Witness for C2: a rejected attempt 5 seconds after an entrance leaves the
concrete ledger unchanged. -/
theorem evaluar_debounce_witness :
    procesar_rostro [("2026-10-12", [("Ana", [{ tipo := "entrada", hora := 32400 }])])]
        "2026-10-12" "Ana" 32405 =
      [("2026-10-12", [("Ana", [{ tipo := "entrada", hora := 32400 }])])] :=
  evaluar_debounce.2 [("2026-10-12", [("Ana", [{ tipo := "entrada", hora := 32400 }])])]
    "2026-10-12" "Ana" 32405 { tipo := "entrada", hora := 32400 } rfl (by decide)

/-- C10: `_evaluar_registro` is total and only ever returns (false, none),
(true, "entrada") or (true, "salida") — never allowed = true with no type — and the
elapsed-seconds value it compares against the debounce interval is always in
[0, 86399], even when the current time-of-day precedes the prior event's
time-of-day, because it is the (normalised) `.seconds` field of the timedelta. -/
theorem evaluar_total_y_rango :
    (∀ (nombre : String) (ultimo : Option Registro) (horaActual tiempoEspera : Nat),
        evaluar_registro nombre ultimo horaActual tiempoEspera = (false, none) ∨
        evaluar_registro nombre ultimo horaActual tiempoEspera = (true, some "entrada") ∨
        evaluar_registro nombre ultimo horaActual tiempoEspera = (true, some "salida")) ∧
    (∀ horaActual horaUltimo : Nat, diff_segundos horaActual horaUltimo < 86400) := by
  constructor
  · intro nombre ultimo horaActual tiempoEspera
    match ultimo with
    | none => simp [evaluar_registro]
    | some u =>
      by_cases h : diff_segundos horaActual u.hora < tiempoEspera
      · simp [evaluar_registro, h]
      · by_cases ht : u.tipo = "entrada" <;> simp [evaluar_registro, h, ht]
  · exact diff_segundos_lt

/-- C3: with a prior event today and elapsed time at least the debounce interval,
the policy allows the registration with the opposite type (entrance↔exit toggle);
consequently the events recorded for a person on a day by the server's per-face step
strictly alternate entrance, exit, entrance, … (this holds for every sequence of
attempt times — rejected attempts append nothing — so in particular for attempts
each separated by at least the interval from the previous recorded event). -/
theorem evaluar_alternancia :
    (∀ (nombre : String) (u : Registro) (horaActual tiempoEspera : Nat),
        tiempoEspera ≤ diff_segundos horaActual u.hora →
        evaluar_registro nombre (some u) horaActual tiempoEspera =
          (true, some (if u.tipo = "entrada" then "salida" else "entrada"))) ∧
    (∀ (fecha nombre : String) (times : List Nat),
        alterna 0 (obtener_asistencia_persona
          (times.foldl (fun c t => procesar_rostro c fecha nombre t) []) nombre fecha) =
          true) := by
  constructor
  · intro nombre u horaActual tiempoEspera h
    rw [evaluar_registro]
    simp only [Nat.not_lt.mpr h, if_false]
  · intro fecha nombre times
    have hrun : ∀ (ts : List Nat) (cache : Cache),
        alterna 0 (obtener_asistencia_persona cache nombre fecha) = true →
        alterna 0 (obtener_asistencia_persona
          (ts.foldl (fun c t => procesar_rostro c fecha nombre t) cache) nombre fecha) =
          true := by
      intro ts
      induction ts with
      | nil => intro cache h; simpa using h
      | cons t rest ih =>
        intro cache h
        exact ih _ (alterna_step cache fecha nombre t h)
    exact hrun times [] rfl

/-- Witness for C3: the toggle at a concrete prior entrance 15 seconds earlier. -/
theorem evaluar_alternancia_witness :
    evaluar_registro "Ana" (some { tipo := "entrada", hora := 32400 }) 32415 10 =
      (true, some "salida") := by
  have h := evaluar_alternancia.1 "Ana" { tipo := "entrada", hora := 32400 } 32415 10
    (by decide)
  simpa using h

/-- C5: `_calcular_estadisticas` returns the number of persons with events, the
number with at least one entrance, the number with at least one exit, and as
`presentes` the number with at least one entrance and no exit; in particular a
person whose events are [entrance, exit] is not counted as present (the concrete
Ana/Bob scenario is included). -/
theorem calcular_estadisticas_spec :
    ∀ registros : List (String × List Registro),
      calcular_estadisticas registros =
        { total_personas := registros.length
          con_entrada := registros.countP (fun par => tiene_entrada par.2)
          con_salida := registros.countP (fun par => tiene_salida par.2)
          presentes :=
            registros.countP (fun par => tiene_entrada par.2 && !(tiene_salida par.2)) } ∧
      calcular_estadisticas
          [("Ana", [{ tipo := "entrada", hora := 32400 }]),
           ("Bob", [{ tipo := "entrada", hora := 32460 },
                    { tipo := "salida", hora := 61200 }])] =
        { total_personas := 2, con_entrada := 2, con_salida := 1, presentes := 1 } := by
  have hfold : ∀ (l : List (String × List Registro)) (a b c : Nat),
      l.foldl paso_estadistica (a, b, c) =
        (a + l.countP (fun par => tiene_entrada par.2),
         b + l.countP (fun par => tiene_salida par.2),
         c + l.countP (fun par => tiene_entrada par.2 && !(tiene_salida par.2))) := by
    intro l
    induction l with
    | nil => intro a b c; simp
    | cons p rest ih =>
      intro a b c
      simp only [List.foldl_cons, List.countP_cons, paso_estadistica]
      rw [ih]
      cases hE : tiene_entrada p.2 <;> cases hS : tiene_salida p.2 <;>
        simp [hE, hS] <;> omega
  intro registros
  constructor
  · simp [calcular_estadisticas, hfold]
  · decide

namespace FaceRec

theorem le_mejor_desde (embedding : List ℚ) :
    ∀ (personas : Personas) (s : ℚ), s ≤ mejor_desde embedding s personas := by
  intro personas
  induction personas with
  | nil => intro s; exact le_refl s
  | cons p rest ih =>
    intro s
    calc s ≤ max s (np_dot embedding p.2.embedding) := le_max_left _ _
      _ ≤ mejor_desde embedding (max s (np_dot embedding p.2.embedding)) rest := ih _
      _ = mejor_desde embedding s (p :: rest) := rfl

theorem foldl_reconocer (embedding : List ℚ) :
    ∀ (personas : Personas),
      (∀ par ∈ personas, par.2.embedding ≠ []) →
      ∀ (m : Option String) (s : ℚ),
        personas.foldl (paso_reconocer embedding) (m, s) =
          ((if s < mejor_desde embedding s personas then
              (personas.find? (fun par =>
                decide (np_dot embedding par.2.embedding =
                  mejor_desde embedding s personas))).map Prod.fst
            else m),
           mejor_desde embedding s personas) := by
  intro personas
  induction personas with
  | nil =>
    intro _ m s
    simp [mejor_desde]
  | cons p rest ih =>
    intro hne m s
    have hp : p.2.embedding ≠ [] := hne p (List.mem_cons_self p rest)
    have hrest : ∀ par ∈ rest, par.2.embedding ≠ [] :=
      fun par hm => hne par (List.mem_cons_of_mem p hm)
    have hemp : p.2.embedding.isEmpty = false := by
      cases hh : p.2.embedding with
      | nil => exact absurd hh hp
      | cons x xs => rfl
    by_cases hlt : s < np_dot embedding p.2.embedding
    · have hstep : paso_reconocer embedding (m, s) p =
          (some p.1, np_dot embedding p.2.embedding) := by
        simp [paso_reconocer, hemp, hlt]
      have hS : mejor_desde embedding s (p :: rest) =
          mejor_desde embedding (np_dot embedding p.2.embedding) rest := by
        show mejor_desde embedding (max s (np_dot embedding p.2.embedding)) rest = _
        rw [max_eq_right (le_of_lt hlt)]
      rw [List.foldl_cons, hstep, ih hrest, hS]
      have hsS : s < mejor_desde embedding (np_dot embedding p.2.embedding) rest :=
        lt_of_lt_of_le hlt (le_mejor_desde embedding rest _)
      rw [if_pos hsS]
      by_cases heq : np_dot embedding p.2.embedding =
          mejor_desde embedding (np_dot embedding p.2.embedding) rest
      · have hfind : List.find? (fun par =>
            decide (np_dot embedding par.2.embedding =
              mejor_desde embedding (np_dot embedding p.2.embedding) rest)) (p :: rest) =
            some p :=
          List.find?_cons_of_pos rest (by exact decide_eq_true heq)
        rw [hfind]
        have hnotlt : ¬ np_dot embedding p.2.embedding <
            mejor_desde embedding (np_dot embedding p.2.embedding) rest := by
          rw [← heq]; exact lt_irrefl _
        rw [if_neg hnotlt]
        simp
      · have hfind : List.find? (fun par =>
            decide (np_dot embedding par.2.embedding =
              mejor_desde embedding (np_dot embedding p.2.embedding) rest)) (p :: rest) =
            List.find? (fun par =>
              decide (np_dot embedding par.2.embedding =
                mejor_desde embedding (np_dot embedding p.2.embedding) rest)) rest :=
          List.find?_cons_of_neg rest (by simpa using heq)
        rw [hfind]
        have hltS : np_dot embedding p.2.embedding <
            mejor_desde embedding (np_dot embedding p.2.embedding) rest :=
          lt_of_le_of_ne (le_mejor_desde embedding rest _) heq
        rw [if_pos hltS]
    · have hstep : paso_reconocer embedding (m, s) p = (m, s) := by
        simp [paso_reconocer, hemp, hlt]
      have hS : mejor_desde embedding s (p :: rest) = mejor_desde embedding s rest := by
        show mejor_desde embedding (max s (np_dot embedding p.2.embedding)) rest = _
        rw [max_eq_left (le_of_not_lt hlt)]
      rw [List.foldl_cons, hstep, ih hrest, hS]
      by_cases hsS : s < mejor_desde embedding s rest
      · have hpne : ¬ np_dot embedding p.2.embedding = mejor_desde embedding s rest := by
          intro heq
          exact absurd (heq ▸ hsS) hlt
        have hfind : List.find? (fun par =>
            decide (np_dot embedding par.2.embedding = mejor_desde embedding s rest))
              (p :: rest) =
            List.find? (fun par =>
              decide (np_dot embedding par.2.embedding = mejor_desde embedding s rest))
              rest :=
          List.find?_cons_of_neg rest (by simpa using hpne)
        rw [if_pos hsS, if_pos hsS, hfind]
      · rw [if_neg hsS, if_neg hsS]

end FaceRec

open FaceRec in
/-- C4: `_reconocer_persona` returns the name whose stored embedding has the maximum
dot product with the query together with that similarity when the maximum reaches
the (positive, default 0.4) threshold, and otherwise `None` ("unknown") with
similarity exactly 0; among exact ties the first-seen entry of the store's iteration
order wins (`primer_mejor`). Stated for stores whose entries all have a non-empty
stored embedding (entries with an empty embedding are skipped by the source). -/
theorem reconocer_maximo (personas : Personas) (embedding : List ℚ) (umbral : ℚ)
    (hne : ∀ par ∈ personas, par.2.embedding ≠ []) (hpos : 0 < umbral) :
    reconocer_persona personas embedding umbral =
      if umbral ≤ mejor_similitud personas embedding then
        (primer_mejor personas embedding, mejor_similitud personas embedding)
      else (none, 0) := by
  unfold reconocer_persona
  rw [foldl_reconocer embedding personas hne none 0]
  by_cases h : umbral ≤ mejor_desde embedding 0 personas
  · have h0 : (0 : ℚ) < mejor_desde embedding 0 personas := lt_of_lt_of_le hpos h
    simp [mejor_similitud, primer_mejor, h, h0]
  · simp [mejor_similitud, h]

/-- Witness for C4: a two-entry store where the second entry wins with similarity
1/2 ≥ 2/5. -/
theorem reconocer_maximo_witness :
    FaceRec.reconocer_persona
        [("A", { embedding := [1], fecha_registro := "2026-01-01", edad := none,
                 genero := "M" }),
         ("B", { embedding := [2], fecha_registro := "2026-01-01", edad := none,
                 genero := "M" })]
        [(1 : ℚ) / 4] (2 / 5) =
      if (2 / 5 : ℚ) ≤ FaceRec.mejor_similitud
          [("A", { embedding := [1], fecha_registro := "2026-01-01", edad := none,
                   genero := "M" }),
           ("B", { embedding := [2], fecha_registro := "2026-01-01", edad := none,
                   genero := "M" })] [(1 : ℚ) / 4] then
        (FaceRec.primer_mejor
          [("A", { embedding := [1], fecha_registro := "2026-01-01", edad := none,
                   genero := "M" }),
           ("B", { embedding := [2], fecha_registro := "2026-01-01", edad := none,
                   genero := "M" })] [(1 : ℚ) / 4],
         FaceRec.mejor_similitud
          [("A", { embedding := [1], fecha_registro := "2026-01-01", edad := none,
                   genero := "M" }),
           ("B", { embedding := [2], fecha_registro := "2026-01-01", edad := none,
                   genero := "M" })] [(1 : ℚ) / 4])
      else (none, 0) :=
  reconocer_maximo _ [(1 : ℚ) / 4] (2 / 5) (by decide) (by norm_num)

/-- C6: `registrar_persona` fails (with an error result and an unchanged identity
store) when zero faces or more than one face is detected, and succeeds exactly when
one face is detected. -/
theorem registrar_exactamente_un_rostro :
    ∀ (personas : FaceRec.Personas) (nombre : String) (faces : List FaceRec.Face)
      (ahora : String),
      ((FaceRec.registrar_persona personas nombre faces ahora).1.1 = true ↔
        faces.length = 1) ∧
      (faces.length ≠ 1 →
        (FaceRec.registrar_persona personas nombre faces ahora).2 = personas) := by
  intro personas nombre faces ahora
  match faces with
  | [] => simp [FaceRec.registrar_persona]
  | [face] => simp [FaceRec.registrar_persona]
  | f1 :: f2 :: rest =>
    refine ⟨?_, fun _ => rfl⟩
    simp [FaceRec.registrar_persona]

/-- Witness for C6: registering with a two-face image leaves a concrete store
unchanged. -/
theorem registrar_exactamente_un_rostro_witness :
    (FaceRec.registrar_persona [] "Ana"
        [{ bbox := [0, 0, 10, 10], age := some 20, sex := some "F",
           det_score := some (9 / 10), normed_embedding := [1] },
         { bbox := [20, 0, 30, 10], age := some 30, sex := some "M",
           det_score := some (8 / 10), normed_embedding := [1] }]
        "2026-10-12 09:00:00").2 = [] :=
  (registrar_exactamente_un_rostro [] "Ana"
    [{ bbox := [0, 0, 10, 10], age := some 20, sex := some "F",
       det_score := some (9 / 10), normed_embedding := [1] },
     { bbox := [20, 0, 30, 10], age := some 30, sex := some "M",
       det_score := some (8 / 10), normed_embedding := [1] }]
    "2026-10-12 09:00:00").2 (by decide)

/-- C7: registering a person from a single face then looking the name up returns
exactly the stored record (re-registration with the same name overwrites — last
registration wins), and removing a name then looking it up returns not-found. -/
theorem registrar_eliminar_roundtrip :
    ∀ (personas : FaceRec.Personas) (nombre : String) (face : FaceRec.Face)
      (ahora : String),
      dictGet (FaceRec.registrar_persona personas nombre [face] ahora).2 nombre =
        some (FaceRec.persona_info_de face ahora) ∧
      dictGet (FaceRec.eliminar_persona personas nombre).2 nombre = none := by
  intro personas nombre face ahora
  constructor
  · exact dictGet_dictSet_self personas nombre (FaceRec.persona_info_de face ahora)
  · unfold FaceRec.eliminar_persona
    cases hany : personas.any (fun par => par.1 == nombre) with
    | true =>
      simp only [hany, if_pos]
      exact dictGet_filter_ne personas nombre
    | false =>
      simp only [hany, Bool.false_eq_true, if_neg, not_false_eq_true]
      exact dictGet_of_any_false personas nombre hany

/-- C8 counterexample: at a concrete failed insert (remote store raises), the
backing store records nothing (`guardar_asistencia` swallows the exception and
returns the empty dict), yet `registrar_asistencia` still reports success — so the
failure is NOT surfaced to the caller as the claim states. -/
theorem persistencia_counterexample :
    Supabase.guardar_asistencia true (Supabase.ResultadoBackend.excepcion
        "connection refused") "Ana" "entrada" "2026-10-12" "09:00:00" = none ∧
    (Supabase.registrar_asistencia (Supabase.ResultadoBackend.excepcion
        "connection refused") "Ana" "entrada" "2026-10-12" "09:00:00").exito = true :=
  ⟨rfl, rfl⟩

/-- C8 amended: when a persistence operation fails, `guardar_asistencia` catches the
exception, logs it and returns the empty dict, and `registrar_asistencia` discards
that result and reports `exito = True` with the event data regardless of the store
outcome — persistence failures are silently swallowed, not surfaced. -/
theorem persistencia_swallowed :
    ∀ (insercion : Supabase.ResultadoBackend) (nombre tipo fecha hora mensaje : String),
      (Supabase.registrar_asistencia insercion nombre tipo fecha hora).exito = true ∧
      Supabase.guardar_asistencia true (Supabase.ResultadoBackend.excepcion mensaje)
          nombre tipo fecha hora = none := by
  intro insercion nombre tipo fecha hora mensaje
  exact ⟨rfl, rfl⟩

/-- C9 counterexample: in Supabase mode (reachable from `GET /api/personas` when the
hosted store is enabled), a concrete listed record carries the key `foto_url`, which
is not among name/registration date/age/gender — so the listing does not contain
only those fields. -/
theorem listar_counterexample :
    "foto_url" ∈ (((FaceRec.listar_personas_supabase
        [{ nombre := "Ana", fecha_registro := some "2026-10-12", edad := some 20,
           genero := some "F", foto_url := some "https://example.com/ana.jpg" }]).getD
        0 []).map Prod.fst) ∧
    "foto_url" ∉ (["nombre", "fecha_registro", "edad", "genero"] : List String) := by
  decide

/-- C9 amended: the local-mode person listing returns records with exactly the keys
nombre, fecha_registro, edad, genero; the Supabase-mode listing returns exactly
those keys plus foto_url; in neither mode does any record carry the stored
embedding, and every face object of the detect endpoint has its `embedding` key
removed before the response is produced. -/
theorem listar_sin_embedding :
    (∀ personas : FaceRec.Personas,
      (FaceRec.listar_personas_local personas).all
        (fun r => r.map Prod.fst == ["nombre", "fecha_registro", "edad", "genero"]) =
        true) ∧
    (∀ filas : List FaceRec.FilaPersona,
      (FaceRec.listar_personas_supabase filas).all
        (fun r => r.map Prod.fst ==
          ["nombre", "fecha_registro", "edad", "genero", "foto_url"]) = true) ∧
    (∀ (personas : FaceRec.Personas) (faces : List FaceRec.Face),
      (FaceRec.limpiar_embeddings (FaceRec.detectar_rostros personas faces)).all
        (fun r => r.all (fun par => !(par.1 == "embedding"))) = true) := by
  refine ⟨fun personas => ?_, fun filas => ?_, fun personas faces => ?_⟩
  · simp only [FaceRec.listar_personas_local, List.all_eq_true, List.mem_map]
    rintro r ⟨par, hmem, rfl⟩
    rfl
  · simp only [FaceRec.listar_personas_supabase, List.all_eq_true, List.mem_map]
    rintro r ⟨fila, hmem, rfl⟩
    rfl
  · simp only [FaceRec.limpiar_embeddings, List.all_eq_true, List.mem_map]
    rintro r ⟨rostro, hmem, rfl⟩
    intro par hpar
    exact (List.mem_filter.mp hpar).2
